import Mathlib

/-!
Verification development for the subtitle rendering engine in
`src/kksubs/model/subtitle_services.py`.

The Python module is shallowly embedded below:

* pure raster state is explicit: a `Canvas` is a pixel function together with
  its dimensions, a render `Layer` is a pixel function returning `none` for a
  fully transparent pixel (PIL `paste(layer, (0,0), layer)` with the layer as
  its own mask overwrites exactly the pixels where the layer has ink);
* Python floats arising from `/2` and `font.getlength` are modelled as `ℚ`
  (every quantity the code produces here is a dyadic rational, so this is
  exact);
* external library behaviour is part of the embedding where the code calls
  it: `textwrap.wrap` (CPython algorithm, default `TextWrapper` options) is
  reimplemented below; PIL font rasterization, background decoding and
  Gaussian blur are opaque inputs carried by a `Font`/`RenderEnv` record,
  since the code treats them as black boxes;
* fallible operations (`ImageFont.truetype`, `max([])`, the `ValueError`
  raises for alignment/push, and `textwrap`'s width check) return explicit
  errors; the canvas state at raise time is retained because the Python code
  mutates the caller's image in place.
-/

/-- A pixel colour.  PIL colour values (strings / tuples) are opaque data to
the code under study, so we model them as an abstract numeric code. -/
abbrev Color := ℕ

/-- A pixel coordinate. -/
abbrev Pos := ℤ × ℤ

/-- A transparent RGBA render layer: `none` is a fully transparent pixel,
`some c` an opaque pixel of colour `c`.  The code only ever creates layers
with fully opaque ink (`ImageDraw.text` on a `(255,255,255,0)` buffer), so a
binary alpha model is exact for unblurred layers. -/
abbrev Layer := Pos → Option Color

/-- The mutable raster canvas: dimensions plus a total pixel function. -/
structure Canvas where
  width : ℕ
  height : ℕ
  pix : Pos → Color

/-- `image.paste(layer, (0, 0), layer)`: using the layer as its own mask,
opaque layer pixels overwrite the canvas, transparent ones are no-ops. -/
def paste (image : Canvas) (layer : Layer) : Canvas :=
  { image with pix := fun p => (layer p).getD (image.pix p) }

/-- A freshly allocated `Image.new("RGBA", size, (255, 255, 255, 0))`:
every pixel transparent. -/
def emptyLayer : Layer := fun _ => none

/-! ### The data model (`domain_models.py` carriers, as accessed by
`subtitle_services.py`) -/

/-- Font styling data (`subtitle_profile.font_data`): attribute set read at
`subtitle_services.py` lines 54-58. -/
structure FontData where
  style : String
  color : Color
  size : ℤ
  stroke_size : Option ℕ
  stroke_color : Option Color

/-- One outline layer spec (`outline_data_1` / `outline_data_2`): attributes
read at lines 96-106 and 117-124. -/
structure OutlineData where
  color : Color
  radius : ℕ
  blur_strength : Option ℚ

/-- Textbox spec (`subtitle_profile.textbox_data`): attributes read at
lines 59-62. -/
structure TextboxData where
  alignment : String
  anchor_point : ℚ × ℚ
  box_width : ℤ
  push : String

/-- A subtitle style profile, with the two optional outline layers and the
optional background image reference (lines 33-37). -/
structure SubtitleProfile where
  font_data : FontData
  outline_data_1 : Option OutlineData
  outline_data_2 : Option OutlineData
  textbox_data : TextboxData
  background_image_path : Option String

/-- A subtitle: a profile plus the ordered logical text lines. -/
structure Subtitle where
  subtitle_profile : SubtitleProfile
  content : List String

/-- A subtitle group: one target image id and the ordered subtitle list. -/
structure SubtitleGroup where
  image_id : String
  subtitle_list : List Subtitle

/-! ### External rasterizer interface

A loaded `ImageFont` object is opaque to the code: the code only calls
`getmetrics`, `getmask(..).getbbox()`, `getlength` and hands the font to
`ImageDraw.text`.  We model it as a record of those observations, including
the ink coverage produced by `ImageDraw.text` (glyph ink, plus stroke ink as
a function of the `stroke_width` argument). -/
structure Font where
  ascent : ℤ
  descent : ℤ
  /-- `font.getlength(line)`: the (possibly fractional) pixel advance. -/
  getlength : String → ℚ
  /-- `font.getmask(text).getbbox()[2]`: right edge of the ink bounding box. -/
  maskBbox2 : String → ℤ
  /-- `font.getmask(text).getbbox()[3]`: bottom edge of the ink bounding box. -/
  maskBbox3 : String → ℤ
  /-- Pixels inked by drawing `line` at a given origin (the glyph fill). -/
  glyphInk : String → ℚ × ℚ → Pos → Bool
  /-- Pixels inked by the stroke pass of width `w` around `line`. -/
  strokeInk : String → ℚ × ℚ → ℕ → Pos → Bool

/-- The external collaborators the module calls: font resolution
(`ImageFont.truetype`, failing on an unresolvable reference), background
image decoding (`Image.open` of a background path, as an RGBA layer whose
own alpha is the paste mask), base image opening, and `ImageFilter.GaussianBlur`. -/
structure RenderEnv where
  loadFont : String → ℤ → Option Font
  openBackground : String → Layer
  openImage : String → Canvas
  blur : ℚ → Layer → Layer

/-- The fatal errors the module can raise, in order of the raise sites:
`textwrap`'s `ValueError` for a non-positive width, `ImageFont.truetype`
failing to resolve the font, `max()` on an empty sequence (line 69), and the
two explicit `ValueError` raises for alignment (line 87) and push (line 93). -/
inductive RenderError where
  | invalidWidth
  | fontNotFound
  | emptyMaxArg
  | invalidAlignment
  | invalidPush
deriving DecidableEq, Repr

/-- Ghost trace of the canvas-mutating paste operations, in program order:
the background paste (line 42), the per-line fill-layer paste (line 114),
the outline-2 paste (line 120), the outline-1 paste (line 124) and the final
fill-layer paste (line 126). -/
inductive PasteEvent where
  | background
  | fillLine (i : ℕ)
  | outline2
  | outline1
  | fillFinal
deriving DecidableEq, Repr

/-! ### `textwrap.wrap` (CPython, default `TextWrapper` options)

`subtitle_services.py` line 65 calls `textwrap.wrap(line, width=box_width)`
with all other options defaulted: `expand_tabs=True` (tabsize 8),
`replace_whitespace=True`, `drop_whitespace=True`, `break_long_words=True`,
`initial_indent = subsequent_indent = ''`, `max_lines=None`.

One simplification relative to CPython: `break_on_hyphens` sub-splitting of
word chunks at hyphen positions is not modelled (chunks are maximal
whitespace / non-whitespace runs).  This only changes where an over-long
chunk may be force-split; no statement below involves hyphenated input.
`str.strip()`-emptiness tests on chunks are modelled with the same
six-character whitespace class `textwrap._whitespace` uses. -/

/-- The characters of `textwrap._whitespace` (`"\t\n\x0b\x0c\r "`). -/
def isWrapWS (c : Char) : Bool :=
  c = '\t' || c = '\n' || c = Char.ofNat 11 || c = Char.ofNat 12 || c = '\r' || c = ' '

/-- `str.expandtabs(tabsize)`: replace each tab with spaces up to the next
multiple of `tabsize` columns; `\n` and `\r` reset the column counter. -/
def expandtabsAux (tabsize : ℕ) : ℕ → List Char → List Char
  | _, [] => []
  | col, c :: rest =>
    if c = '\t' then
      if 0 < tabsize then
        let n := tabsize - col % tabsize
        List.replicate n ' ' ++ expandtabsAux tabsize (col + n) rest
      else expandtabsAux tabsize col rest
    else if c = '\n' ∨ c = '\r' then c :: expandtabsAux tabsize 0 rest
    else c :: expandtabsAux tabsize (col + 1) rest

/-- `TextWrapper._munge_whitespace`: expand tabs, then translate each of the
six whitespace characters to a space. -/
def mungeWhitespace (l : List Char) : List Char :=
  (expandtabsAux 8 0 l).map fun c => if isWrapWS c then ' ' else c

/-- `TextWrapper._split` restricted to whitespace/word alternation: the text
is cut into maximal runs of same-class (whitespace vs non-whitespace)
characters; empty chunks do not occur. -/
def splitRuns : List Char → List (List Char)
  | [] => []
  | c :: rest =>
    match splitRuns rest with
    | [] => [[c]]
    | chunk :: chunks =>
      match chunk with
      | [] => [c] :: chunk :: chunks
      | d :: _ =>
        if isWrapWS c = isWrapWS d then (c :: chunk) :: chunks
        else [c] :: chunk :: chunks

/-- `chunk.strip() == ''`: the chunk is entirely whitespace. -/
def isSpaceChunk (chunk : List Char) : Bool := chunk.all isWrapWS

/-- The greedy packing loop of `_wrap_chunks`: pop chunks onto the current
line while the accumulated length stays within `w`.  Returns the packed
chunks (in order), the remaining chunks and the packed length. -/
def packLine (w : ℕ) : List (List Char) → ℕ → List (List Char) →
    List (List Char) × List (List Char) × ℕ
  | [], len, acc => (acc, [], len)
  | ch :: rest, len, acc =>
    if len + ch.length ≤ w then packLine w rest (len + ch.length) (acc ++ [ch])
    else (acc, ch :: rest, len)

/-- One `while chunks:` iteration of `_wrap_chunks` plus the loop itself,
fuel-indexed (the fuel argument strictly exceeds the loop's termination
measure at the call site in `pyWrap`, so the fuel-0 branch is never taken
there).  Steps per iteration: drop a leading whitespace chunk unless no line
has been emitted yet; greedily pack; force-split an over-long head chunk
(`_handle_long_word` with `break_long_words`); drop a trailing whitespace
chunk; emit the line if nonempty. -/
def wrapOuter (w : ℕ) : ℕ → List (List Char) → List (List Char) → List (List Char)
  | 0, _, lines => lines
  | _ + 1, [], lines => lines
  | fuel + 1, c :: cs, lines =>
    let chunks1 : List (List Char) :=
      if (!lines.isEmpty) && isSpaceChunk c then cs else c :: cs
    let packed := packLine w chunks1 0 []
    let afterLong : List (List Char) × List (List Char) :=
      match packed.2.1 with
      | ch :: rest2 =>
        if w < ch.length then
          let spaceLeft := if w < 1 then 1 else w - packed.2.2
          (packed.1 ++ [ch.take spaceLeft], ch.drop spaceLeft :: rest2)
        else (packed.1, ch :: rest2)
      | [] => (packed.1, [])
    let curLine : List (List Char) :=
      match afterLong.1.getLast? with
      | some lastCh => if isSpaceChunk lastCh then afterLong.1.dropLast else afterLong.1
      | none => afterLong.1
    let lines1 := if curLine.isEmpty then lines else lines ++ [curLine.flatten]
    wrapOuter w fuel afterLong.2 lines1

/-- Fuel bound for `wrapOuter`: every iteration strictly decreases the chunk
count plus total chunk length. -/
def chunksFuel (chunks : List (List Char)) : ℕ :=
  (chunks.map List.length).sum + chunks.length + 1

/-- `textwrap.wrap(s, width=w)` for a positive width `w`. -/
def pyWrap (s : String) (w : ℕ) : List String :=
  let chunks := splitRuns (mungeWhitespace s.data)
  (wrapOuter w (chunksFuel chunks) chunks []).map fun l => String.mk l

/-- `textwrap.wrap(s, width)` including the `ValueError` CPython raises in
`_wrap_chunks` when `width <= 0`. -/
def pyWrapE (line : String) (width : ℤ) : Except RenderError (List String) :=
  if width ≤ 0 then .error .invalidWidth else .ok (pyWrap line width.toNat)

/-- Line 65: `[_line for line in content for _line in textwrap.wrap(line,
width=box_width)]` — each logical line wrapped independently, flattened in
order; the first failing `wrap` call aborts. -/
def wrappedText (content : List String) (width : ℤ) : Except RenderError (List String) :=
  match content with
  | [] => .ok []
  | line :: rest =>
    match pyWrapE line width with
    | .error e => .error e
    | .ok ls =>
      match wrappedText rest width with
      | .error e => .error e
      | .ok rs => .ok (ls ++ rs)

/-! ### Metrics and line positioning -/

/-- `_get_text_dimensions` (lines 13-19): ink bounding-box width, and ink
bounding-box bottom plus the font descent. -/
def getTextDimensions (text : String) (font : Font) : ℤ × ℤ :=
  (font.maskBbox2 text, font.maskBbox3 text + font.descent)

/-- Python `max(list)` (line 69): raises `ValueError` on an empty sequence. -/
def pyMax (l : List ℤ) : Except RenderError ℤ :=
  match l with
  | [] => .error .emptyMaxArg
  | x :: xs => .ok (xs.foldl max x)

/-- The horizontal origin of one line (lines 80-87): alignment dispatch on
the profile's alignment string, `none` for the `ValueError` raise. -/
def lineX (alignment : String) (image_width tb_anchor_x text_width : ℚ) : Option ℚ :=
  if alignment = "left" then
    some ((image_width + text_width) / 2 + tb_anchor_x - text_width / 2)
  else if alignment = "center" then
    some (image_width / 2 + tb_anchor_x - text_width / 2)
  else if alignment = "right" then
    some ((image_width - text_width) / 2 + tb_anchor_x - text_width / 2)
  else none

/-- The vertical origin of line `i` (lines 88-93): push dispatch on the
profile's push string, `none` for the `ValueError` raise.
`sum_text_height = num_lines * text_height` (line 74) is inlined. -/
def lineY (push : String) (image_height text_height tb_anchor_y : ℚ)
    (num_lines i : ℕ) : Option ℚ :=
  if push = "up" then
    some (image_height / 2 - tb_anchor_y + (-(text_height * ((num_lines - i : ℕ) : ℚ))))
  else if push = "down" then
    some (image_height / 2 - tb_anchor_y +
      ((num_lines : ℚ) * text_height - text_height * ((num_lines - i : ℕ) : ℚ)))
  else none

/-! ### The per-line render loop (lines 77-114) -/

/-- `ImageDraw.text(pos, line, font=font, fill=fill, stroke_width=sw,
stroke_fill=strokeFill)` on a transparent layer: glyph pixels get the fill
colour, stroke-ring pixels (for a nonzero stroke width) the stroke colour,
all other pixels keep the layer's previous content. -/
def drawText (font : Font) (layer : Layer) (pos : ℚ × ℚ) (line : String)
    (fill : Color) (strokeWidth : ℕ) (strokeFill : Color) : Layer :=
  fun p =>
    if font.glyphInk line pos p then some fill
    else if strokeWidth ≠ 0 && font.strokeInk line pos strokeWidth p then some strokeFill
    else layer p

/-- The loop-invariant data of the `for i, line in enumerate(wrapped_text)`
loop: everything read but not written by an iteration. -/
structure LineSettings where
  font : Font
  alignment : String
  push : String
  tb_anchor_x : ℚ
  tb_anchor_y : ℚ
  image_width : ℚ
  image_height : ℚ
  text_height : ℚ
  num_lines : ℕ
  font_color : Color
  stroke_size : Option ℕ
  stroke_color : Option Color
  outline1 : Option OutlineData
  outline2 : Option OutlineData

/-- The mutable state of one `apply_subtitle_to_image` call: the canvas, the
three transparent layers, plus two ghost fields (the paste trace and the
computed `line_pos` values) and the pending-exception marker. -/
structure DrawState where
  image : Canvas
  textLayer : Layer
  o1Layer : Layer
  o2Layer : Layer
  trace : List PasteEvent
  linePos : List (ℚ × ℚ)
  err : Option RenderError

/-- One iteration of the line loop (lines 77-114): recompute the line width
with `font.getlength`, compute the origin (raising for a bad alignment or
push value), draw into whichever outline layers are configured, draw into
the fill layer (with the fused fill stroke when `stroke_size` is set), and
paste the cumulative fill layer onto the canvas. -/
def drawLineStep (S : LineSettings) (st : DrawState) (i : ℕ) (line : String) : DrawState :=
  let text_width := S.font.getlength line
  match lineX S.alignment S.image_width S.tb_anchor_x text_width with
  | none => { st with err := some .invalidAlignment }
  | some x =>
    match lineY S.push S.image_height S.text_height S.tb_anchor_y S.num_lines i with
    | none => { st with err := some .invalidPush }
    | some y =>
      let pos := (x, y)
      let o2 : Layer :=
        match S.outline2 with
        | some od => drawText S.font st.o2Layer pos line od.color od.radius od.color
        | none => st.o2Layer
      let o1 : Layer :=
        match S.outline1 with
        | some od => drawText S.font st.o1Layer pos line od.color od.radius od.color
        | none => st.o1Layer
      let textL : Layer :=
        match S.stroke_size with
        | some sw => drawText S.font st.textLayer pos line S.font_color sw
            (S.stroke_color.getD 0)
        | none => drawText S.font st.textLayer pos line S.font_color 0 0
      { image := paste st.image textL
        textLayer := textL
        o1Layer := o1
        o2Layer := o2
        trace := st.trace ++ [.fillLine i]
        linePos := st.linePos ++ [pos]
        err := st.err }

/-- The whole line loop; a pending exception aborts the remaining
iterations. -/
def drawLines (S : LineSettings) : List (ℕ × String) → DrawState → DrawState
  | [], st => st
  | pr :: rest, st =>
    if st.err.isSome then st else drawLines S rest (drawLineStep S st pr.1 pr.2)

/-! ### `apply_subtitle_to_image` (lines 25-130) -/

/-- Lines 40-42: paste the decoded background image (masked by its own
alpha) at the origin, if a background path is configured. -/
def withBackground (env : RenderEnv) (image : Canvas) (profile : SubtitleProfile) :
    Canvas × List PasteEvent :=
  match profile.background_image_path with
  | some path => (paste image (env.openBackground path), [PasteEvent.background])
  | none => (image, [])

/-- A `DrawState` just after layer allocation (lines 46-51): canvas as
given, all three layers transparent, no pastes or positions recorded. -/
def initState (image : Canvas) (trace : List PasteEvent) (e : Option RenderError) :
    DrawState :=
  { image := image, textLayer := emptyLayer, o1Layer := emptyLayer,
    o2Layer := emptyLayer, trace := trace, linePos := [], err := e }

/-- The loop-invariant settings, as extracted from the profile and the
canvas (lines 45, 54-62, 72-74). -/
def mkSettings (profile : SubtitleProfile) (font : Font) (image : Canvas)
    (numLines : ℕ) : LineSettings :=
  { font := font
    alignment := profile.textbox_data.alignment
    push := profile.textbox_data.push
    tb_anchor_x := profile.textbox_data.anchor_point.1
    tb_anchor_y := profile.textbox_data.anchor_point.2
    image_width := (image.width : ℚ)
    image_height := (image.height : ℚ)
    text_height := ((getTextDimensions "l" font).2 : ℚ)
    num_lines := numLines
    font_color := profile.font_data.color
    stroke_size := profile.font_data.stroke_size
    stroke_color := profile.font_data.stroke_color
    outline1 := profile.outline_data_1
    outline2 := profile.outline_data_2 }

/-- `apply_subtitle_to_image` up to the end of the line loop: background
paste, text wrapping, font resolution, metrics (`max_text_width` is computed
— and then never used — exactly as in the source), then the render loop.
The resulting state carries the canvas as mutated so far and the pending
exception, if any. -/
def applyCore (env : RenderEnv) (image0 : Canvas) (subtitle : Subtitle) : DrawState :=
  let profile := subtitle.subtitle_profile
  let bg := withBackground env image0 profile
  match wrappedText subtitle.content profile.textbox_data.box_width with
  | .error e => initState bg.1 bg.2 (some e)
  | .ok wrapped =>
    match env.loadFont profile.font_data.style profile.font_data.size with
    | none => initState bg.1 bg.2 (some .fontNotFound)
    | some font =>
      let text_widths :=
        (wrapped.map fun line => getTextDimensions line font).map Prod.fst
      match pyMax text_widths with
      | .error e => initState bg.1 bg.2 (some e)
      | .ok _max_text_width =>
        drawLines (mkSettings profile font bg.1 wrapped.length) wrapped.enum
          (initState bg.1 bg.2 none)

/-- Lines 118-119 / 122-123: the outline layer actually pasted — Gaussian
blurred when `blur_strength` is set and truthy (nonzero), untouched
otherwise. -/
def compositedOutline (env : RenderEnv) (od : OutlineData) (layer : Layer) : Layer :=
  match od.blur_strength with
  | some b => if b ≠ 0 then env.blur b layer else layer
  | none => layer

/-- The observable outcome of `apply_subtitle_to_image`: the canvas (in its
at-raise state when an exception escapes, since the code mutates the
caller's image in place), the paste trace, and the exception if one was
raised. -/
structure ApplyResult where
  image : Canvas
  trace : List PasteEvent
  error : Option RenderError

/-- `apply_subtitle_to_image` (lines 25-130): the core pipeline, then the
final pastes (lines 116-126): blurred outline 2, blurred outline 1, and the
fill layer once more, topmost. -/
def applySubtitleToImage (env : RenderEnv) (image : Canvas) (subtitle : Subtitle) :
    ApplyResult :=
  let st := applyCore env image subtitle
  match st.err with
  | some e => { image := st.image, trace := st.trace, error := some e }
  | none =>
    let profile := subtitle.subtitle_profile
    let step2 : Canvas × List PasteEvent :=
      match profile.outline_data_2 with
      | some od =>
        (paste st.image (compositedOutline env od st.o2Layer),
         st.trace ++ [PasteEvent.outline2])
      | none => (st.image, st.trace)
    let step1 : Canvas × List PasteEvent :=
      match profile.outline_data_1 with
      | some od =>
        (paste step2.1 (compositedOutline env od st.o1Layer),
         step2.2 ++ [PasteEvent.outline1])
      | none => step2
    { image := paste step1.1 st.textLayer
      trace := step1.2 ++ [PasteEvent.fillFinal]
      error := none }

/-! ### `SubtitleService.apply_subtitle_group` (lines 136-143) -/

/-- The `for subtitle in subtitle_list:` loop of `apply_subtitle_group`:
each subtitle is applied to the canvas produced by the previous one; an
exception aborts the group, leaving the canvas in its at-raise state. -/
def applySubtitleListToImage (env : RenderEnv) (image : Canvas) :
    List Subtitle → Canvas × Option RenderError
  | [] => (image, none)
  | s :: rest =>
    let r := applySubtitleToImage env image s
    match r.error with
    | some e => (r.image, some e)
    | none => applySubtitleListToImage env r.image rest

/-- The data-access collaborator, reduced to the single attribute
`apply_subtitle_group` reads. -/
structure SubtitleDataAccessService where
  input_image_directory : String

/-- The service owning the group applicator. -/
structure SubtitleService where
  subtitle_model : SubtitleDataAccessService

/-- `os.path.join(dir, id)` for a plain relative id: directory, separator,
file name. -/
def joinPath (dir id : String) : String := dir ++ "/" ++ id

/-- `apply_subtitle_group` (lines 136-143): open the canvas once from the
group's image id, then fold the subtitle list over it. -/
def applySubtitleGroup (svc : SubtitleService) (env : RenderEnv)
    (group : SubtitleGroup) : Canvas × Option RenderError :=
  let image := env.openImage (joinPath svc.subtitle_model.input_image_directory group.image_id)
  applySubtitleListToImage env image group.subtitle_list

/-- The `(x, y)` origin a successful loop iteration computes for line `line`
at index `i`: the alignment formula applied to `font.getlength line` — the
width source of line 78 — and the push formula applied to the index. -/
def linePosOf (S : LineSettings) (i : ℕ) (line : String) : ℚ × ℚ :=
  ((lineX S.alignment S.image_width S.tb_anchor_x (S.font.getlength line)).getD 0,
   (lineY S.push S.image_height S.text_height S.tb_anchor_y S.num_lines i).getD 0)

/-! ### Concrete fixtures

Small closed instances of the abstract inputs (fonts, environments, canvases,
subtitles) used to evaluate the theorems below on concrete data. -/

/-- A 200×100 canvas whose pixels all carry colour 0. -/
def base0 : Canvas := ⟨200, 100, fun _ => 0⟩

/-- A font whose glyph pass inks exactly pixel `(0,0)` and whose stroke pass
of width `w` inks the pixels `(0,0) … (w,0)`; every line measures advance 10
and ink box 1×1, with descent 1. -/
def font0 : Font :=
  ⟨1, 1, fun _ => 10, fun _ => 1, fun _ => 1,
   fun _ _ p => decide (p = ((0 : ℤ), (0 : ℤ))),
   fun _ _ w p => decide (p.2 = 0 ∧ 0 ≤ p.1 ∧ p.1 ≤ (w : ℤ))⟩

/-- A font on which the two width observations differ: the advance of `"a"`
is the fractional 9/2 while its ink bounding-box width is 4. -/
def font1 : Font :=
  ⟨1, 2, fun s => if s = "a" then 9 / 2 else 10, fun _ => 4, fun _ => 6,
   fun _ _ _ => false, fun _ _ _ _ => false⟩

/-- A decoded background image with a single opaque pixel of colour 7 at
`(9,9)`. -/
def bgLayer9 : Layer := fun p => if p = ((9 : ℤ), (9 : ℤ)) then some 7 else none

/-- Environment resolving every font reference to `font0`. -/
def env0 : RenderEnv := ⟨fun _ _ => some font0, fun _ => bgLayer9, fun _ => base0, fun _ l => l⟩

/-- Environment on which every font reference is unresolvable. -/
def env1 : RenderEnv := ⟨fun _ _ => none, fun _ => bgLayer9, fun _ => base0, fun _ l => l⟩

/-- Environment resolving every font reference to `font1`. -/
def env6 : RenderEnv := ⟨fun _ _ => some font1, fun _ => bgLayer9, fun _ => base0, fun _ l => l⟩

/-- Centered textbox, anchor `(0,0)`, wrap width 10, push up. -/
def tb0 : TextboxData := ⟨"center", (0, 0), 10, "up"⟩

/-- Profile with both outline layers (colours 3 and 5, radii 1 and 2, no
blur), fill colour 1, no fill stroke, and a background image. -/
def prof3 : SubtitleProfile :=
  ⟨⟨"f", 1, 12, none, none⟩, some ⟨3, 1, none⟩, some ⟨5, 2, none⟩, tb0, some "bg"⟩

/-- One-line subtitle with both outlines and a background. -/
def sub3 : Subtitle := ⟨prof3, ["ab"]⟩

/-- Plain profile: fill colour 2, no outlines, no background. -/
def prof4a : SubtitleProfile := ⟨⟨"f", 2, 12, none, none⟩, none, none, tb0, none⟩

/-- Plain profile: fill colour 4, no outlines, no background. -/
def prof4b : SubtitleProfile := ⟨⟨"f", 4, 12, none, none⟩, none, none, tb0, none⟩

/-- One-line subtitle painting fill colour 2. -/
def sub4a : Subtitle := ⟨prof4a, ["ab"]⟩

/-- One-line subtitle painting fill colour 4 over the same pixels. -/
def sub4b : Subtitle := ⟨prof4b, ["ab"]⟩

/-- Profile with a background image but no outlines. -/
def prof7 : SubtitleProfile := ⟨⟨"f", 1, 12, none, none⟩, none, none, tb0, some "bg"⟩

/-- One-line subtitle with a background image. -/
def sub7 : Subtitle := ⟨prof7, ["ab"]⟩

/-- Profile with the unsupported alignment value and a background image. -/
def prof8 : SubtitleProfile :=
  ⟨⟨"f", 1, 12, none, none⟩, none, none, ⟨"justify", (0, 0), 10, "up"⟩, some "bg"⟩

/-- One-line subtitle with alignment `"justify"` and a background. -/
def sub8 : Subtitle := ⟨prof8, ["ab"]⟩

/-- Profile with the unsupported alignment value and no background image. -/
def prof8b : SubtitleProfile :=
  ⟨⟨"f", 1, 12, none, none⟩, none, none, ⟨"justify", (0, 0), 10, "up"⟩, none⟩

/-- One-line subtitle with alignment `"justify"` and no background. -/
def sub8b : Subtitle := ⟨prof8b, ["ab"]⟩

/-- Subtitle whose single logical line is the string `"a"`. -/
def sub6 : Subtitle := ⟨prof4a, ["a"]⟩

/-- Subtitle whose logical lines are an empty line and a whitespace-only
line: its content wraps to zero physical lines. -/
def sub10 : Subtitle := ⟨prof4a, ["", "  "]⟩

/-! ### Supporting lemmas: the text wrapper -/

theorem expandtabsAux_id (l : List Char) (h : ∀ c ∈ l, c ≠ '\t') :
    ∀ col, expandtabsAux 8 col l = l := by
  induction l with
  | nil => intro col; rfl
  | cons c rest ih =>
    intro col
    have hc : ¬ c = '\t' := h c (List.mem_cons_self c rest)
    have hr : ∀ x ∈ rest, x ≠ '\t' := fun x hx => h x (List.mem_cons_of_mem c hx)
    by_cases hnl : c = '\n' ∨ c = '\r'
    · simp [expandtabsAux, hc, hnl, ih hr]
    · simp [expandtabsAux, hc, hnl, ih hr]

theorem mungeWhitespace_id (l : List Char) (h : ∀ c ∈ l, isWrapWS c = true → c = ' ') :
    mungeWhitespace l = l := by
  have ht : ∀ c ∈ l, c ≠ '\t' := by
    intro c hc he
    have h2 := h c hc
    subst he
    simp [isWrapWS] at h2
  rw [mungeWhitespace, expandtabsAux_id l ht 0]
  have h3 : ∀ c ∈ l, (if isWrapWS c then ' ' else c) = c := by
    intro c hc
    by_cases hw : isWrapWS c
    · simp [hw, h c hc hw]
    · simp [hw]
  rw [List.map_congr_left h3]
  simp

theorem splitRuns_flatten (l : List Char) : (splitRuns l).flatten = l := by
  induction l with
  | nil => rfl
  | cons c rest ih =>
    rw [splitRuns]
    cases hr : splitRuns rest with
    | nil =>
      rw [hr] at ih
      simp at ih
      simp [ih]
    | cons chunk chunks =>
      rw [hr] at ih
      cases chunk with
      | nil => simpa using ih
      | cons d ds =>
        by_cases hd : isWrapWS c = isWrapWS d
        · simpa [hd] using ih
        · simpa [hd] using ih

theorem splitRuns_ne_nil (l : List Char) : ∀ ch ∈ splitRuns l, ch ≠ [] := by
  induction l with
  | nil => simp [splitRuns]
  | cons c rest ih =>
    intro ch hch
    rw [splitRuns] at hch
    cases hr : splitRuns rest with
    | nil => rw [hr] at hch; simp at hch; simp [hch]
    | cons chunk chunks =>
      rw [hr] at hch
      cases chunk with
      | nil =>
        rcases (by simpa using hch : ch = [c] ∨ ch = [] ∨ ch ∈ chunks) with h1 | h1 | h1
        · simp [h1]
        · exact absurd h1 (by have := ih [] (by rw [hr]; exact List.mem_cons_self _ _); simp at this)
        · exact ih ch (by rw [hr]; exact List.mem_cons_of_mem _ h1)
      | cons d ds =>
        by_cases hd : isWrapWS c = isWrapWS d
        · rcases (by simpa [hd] using hch : ch = c :: d :: ds ∨ ch ∈ chunks) with h1 | h1
          · simp [h1]
          · exact ih ch (by rw [hr]; exact List.mem_cons_of_mem _ h1)
        · rcases (by simpa [hd] using hch : ch = [c] ∨ ch = d :: ds ∨ ch ∈ chunks) with h1 | h1 | h1
          · simp [h1]
          · simp [h1]
          · exact ih ch (by rw [hr]; exact List.mem_cons_of_mem _ h1)

theorem flatten_getLast? (cl : List (List Char)) (ch : List Char)
    (h : cl.getLast? = some ch) (hne : ch ≠ []) :
    cl.flatten.getLast? = ch.getLast? := by
  induction cl with
  | nil => simp at h
  | cons a cs ih =>
    cases cs with
    | nil =>
      have ha : a = ch := by
        have : some a = some ch := h
        exact Option.some_inj.mp this
      subst ha
      simp
    | cons b bs =>
      have h2 : (b :: bs).getLast? = some ch := by
        rw [List.getLast?_cons_cons] at h
        exact h
      have h3 := ih h2
      have h4 : (b :: bs).flatten ≠ [] := by
        intro hh
        rw [hh] at h3
        simp only [List.getLast?_nil] at h3
        exact hne (List.getLast?_eq_none_iff.mp h3.symm)
      rw [List.flatten_cons, List.getLast?_append_of_ne_nil _ h4, h3]

theorem packLine_all (w : ℕ) (chunks : List (List Char)) :
    ∀ len acc, len + (chunks.map List.length).sum ≤ w →
    packLine w chunks len acc = (acc ++ chunks, [], len + (chunks.map List.length).sum) := by
  induction chunks with
  | nil => intro len acc _; simp [packLine]
  | cons ch rest ih =>
    intro len acc h
    have hs : len + ch.length + ((rest.map List.length).sum) ≤ w := by
      simp at h
      omega
    have h1 : len + ch.length ≤ w := by omega
    rw [packLine, if_pos h1, ih (len + ch.length) (acc ++ [ch]) hs]
    simp [List.append_assoc]
    omega

theorem wrapOuter_nil (w f : ℕ) (lines : List (List Char)) :
    wrapOuter w f [] lines = lines := by
  cases f <;> rfl

theorem isSpaceChunk_getLast (ch : List Char) (hs : isSpaceChunk ch = true)
    (d : Char) (hd : ch.getLast? = some d) : isWrapWS d = true := by
  rw [isSpaceChunk, List.all_eq_true] at hs
  exact hs d (List.mem_of_mem_getLast? hd)

theorem wrapOuter_single (w fuel : ℕ) (c : List Char) (cs : List (List Char))
    (hsum : ((c :: cs).map List.length).sum ≤ w)
    (hlast2 : ∀ ch, (c :: cs).getLast? = some ch → isSpaceChunk ch = false) :
    wrapOuter w (fuel + 1) (c :: cs) [] = [(c :: cs).flatten] := by
  have hp := packLine_all w (c :: cs) 0 [] (by simpa using hsum)
  rw [wrapOuter]
  simp only [List.isEmpty_nil, Bool.not_true, Bool.false_and, Bool.false_eq_true, if_false, hp]
  cases hgl : (c :: cs).getLast? with
  | none => simp [List.getLast?_eq_none_iff] at hgl
  | some lc =>
    have hlc := hlast2 lc hgl
    simp only [List.nil_append, hgl, hlc, Bool.false_eq_true, if_false, List.isEmpty_cons,
      wrapOuter_nil]

theorem chunksFuel_pos (chunks : List (List Char)) : chunksFuel chunks = chunksFuel chunks - 1 + 1 := by
  rw [chunksFuel]
  omega

/-! ### Supporting lemmas: the render loop -/

theorem drawText_none (font : Font) (layer : Layer) (pos : ℚ × ℚ) (line : String)
    (fill : Color) (sw : ℕ) (sf : Color) (p : Pos)
    (h : drawText font layer pos line fill sw sf p = none) : layer p = none := by
  rw [drawText] at h
  split at h
  · exact absurd h (by simp)
  · split at h
    · exact absurd h (by simp)
    · exact h

theorem drawText_some (font : Font) (layer : Layer) (pos : ℚ × ℚ) (line : String)
    (fill : Color) (sw : ℕ) (sf : Color) (p : Pos) (c : Color)
    (h : drawText font layer pos line fill sw sf p = some c) :
    c = fill ∨ c = sf ∨ layer p = some c := by
  rw [drawText] at h
  split at h
  · exact Or.inl (Option.some_inj.mp h).symm
  · split at h
    · exact Or.inr (Or.inl (Option.some_inj.mp h).symm)
    · exact Or.inr (Or.inr h)

theorem drawLineStep_textLayer_none (S : LineSettings) (st : DrawState) (i : ℕ)
    (line : String) (p : Pos)
    (h : (drawLineStep S st i line).textLayer p = none) : st.textLayer p = none := by
  cases hx : lineX S.alignment S.image_width S.tb_anchor_x (S.font.getlength line) with
  | none => simp only [drawLineStep, hx] at h; exact h
  | some x =>
    cases hy : lineY S.push S.image_height S.text_height S.tb_anchor_y S.num_lines i with
    | none => simp only [drawLineStep, hx, hy] at h; exact h
    | some y =>
      simp only [drawLineStep, hx, hy] at h
      cases hss : S.stroke_size with
      | none => rw [hss] at h; exact drawText_none _ _ _ _ _ _ _ _ h
      | some sw => rw [hss] at h; exact drawText_none _ _ _ _ _ _ _ _ h

theorem drawLineStep_image_pix (S : LineSettings) (st : DrawState) (i : ℕ)
    (line : String) (p : Pos)
    (h : (drawLineStep S st i line).textLayer p = none) :
    (drawLineStep S st i line).image.pix p = st.image.pix p := by
  cases hx : lineX S.alignment S.image_width S.tb_anchor_x (S.font.getlength line) with
  | none => simp only [drawLineStep, hx]
  | some x =>
    cases hy : lineY S.push S.image_height S.text_height S.tb_anchor_y S.num_lines i with
    | none => simp only [drawLineStep, hx, hy]
    | some y =>
      simp only [drawLineStep, hx, hy] at h ⊢
      simp only [paste, h, Option.getD_none]

theorem drawLineStep_out (S : LineSettings) (st : DrawState) (i : ℕ) (line : String)
    (h : (drawLineStep S st i line).err = none) :
    (drawLineStep S st i line).err = st.err ∧
    (drawLineStep S st i line).trace = st.trace ++ [PasteEvent.fillLine i] ∧
    (drawLineStep S st i line).linePos = st.linePos ++ [linePosOf S i line] := by
  cases hx : lineX S.alignment S.image_width S.tb_anchor_x (S.font.getlength line) with
  | none => simp only [drawLineStep, hx] at h; exact absurd h (by simp)
  | some x =>
    cases hy : lineY S.push S.image_height S.text_height S.tb_anchor_y S.num_lines i with
    | none => simp only [drawLineStep, hx, hy] at h; exact absurd h (by simp)
    | some y =>
      refine ⟨?_, ?_, ?_⟩ <;> simp only [drawLineStep, hx, hy]
      simp [linePosOf, hx, hy]

theorem drawLineStep_o2 (S : LineSettings) (st : DrawState) (i : ℕ) (line : String)
    (od : OutlineData) (hS : S.outline2 = some od) (p : Pos) (c : Color)
    (h : (drawLineStep S st i line).o2Layer p = some c) :
    c = od.color ∨ st.o2Layer p = some c := by
  cases hx : lineX S.alignment S.image_width S.tb_anchor_x (S.font.getlength line) with
  | none => simp only [drawLineStep, hx] at h; exact Or.inr h
  | some x =>
    cases hy : lineY S.push S.image_height S.text_height S.tb_anchor_y S.num_lines i with
    | none => simp only [drawLineStep, hx, hy] at h; exact Or.inr h
    | some y =>
      simp only [drawLineStep, hx, hy, hS] at h
      rcases drawText_some _ _ _ _ _ _ _ _ _ h with h1 | h1 | h1
      · exact Or.inl h1
      · exact Or.inl h1
      · exact Or.inr h1

theorem drawLines_of_err (S : LineSettings) (l : List (ℕ × String)) (st : DrawState)
    (e : RenderError) (h : st.err = some e) : drawLines S l st = st := by
  cases l with
  | nil => rfl
  | cons pr rest => rw [drawLines]; simp [h]

theorem drawLines_err_none (S : LineSettings) (l : List (ℕ × String)) (st : DrawState)
    (h : (drawLines S l st).err = none) : st.err = none := by
  cases he : st.err with
  | none => rfl
  | some e =>
    rw [drawLines_of_err S l st e he] at h
    rw [he] at h
    exact Option.noConfusion h

theorem drawLines_textLayer_none (S : LineSettings) (l : List (ℕ × String)) :
    ∀ st p, (drawLines S l st).textLayer p = none → st.textLayer p = none := by
  induction l with
  | nil => intro st p h; exact h
  | cons pr rest ih =>
    intro st p h
    rw [drawLines] at h
    by_cases he : st.err.isSome = true
    · simpa [he] using h
    · simp only [he, if_false] at h
      exact drawLineStep_textLayer_none S st pr.1 pr.2 p (ih _ p h)

theorem drawLines_image_pix (S : LineSettings) (l : List (ℕ × String)) :
    ∀ st p, (drawLines S l st).textLayer p = none →
    (drawLines S l st).image.pix p = st.image.pix p := by
  induction l with
  | nil => intro st p _; rfl
  | cons pr rest ih =>
    intro st p h
    rw [drawLines] at h ⊢
    by_cases he : st.err.isSome = true
    · simp [he]
    · simp only [he, Bool.false_eq_true, if_false] at h ⊢
      rw [ih _ p h]
      exact drawLineStep_image_pix S st pr.1 pr.2 p (drawLines_textLayer_none S rest _ p h)

theorem drawLines_out (S : LineSettings) (l : List (ℕ × String)) :
    ∀ st, st.err = none → (drawLines S l st).err = none →
    (drawLines S l st).trace = st.trace ++ l.map (fun pr => PasteEvent.fillLine pr.1) ∧
    (drawLines S l st).linePos = st.linePos ++ l.map (fun pr => linePosOf S pr.1 pr.2) := by
  induction l with
  | nil => intro st _ _; simp [drawLines]
  | cons pr rest ih =>
    intro st h1 h2
    rw [drawLines] at h2 ⊢
    simp only [h1, Option.isSome_none, Bool.false_eq_true, if_false] at h2 ⊢
    have hstep : (drawLineStep S st pr.1 pr.2).err = none := by
      cases hse : (drawLineStep S st pr.1 pr.2).err with
      | none => rfl
      | some e =>
        rw [drawLines_of_err S rest _ e hse] at h2
        rw [hse] at h2
        exact Option.noConfusion h2
    obtain ⟨_, ht, hp⟩ := drawLineStep_out S st pr.1 pr.2 hstep
    obtain ⟨iht, ihp⟩ := ih _ hstep h2
    constructor
    · rw [iht, ht]; simp
    · rw [ihp, hp]; simp

theorem applySubtitle_error_eq (env : RenderEnv) (image : Canvas) (subtitle : Subtitle) :
    (applySubtitleToImage env image subtitle).error = (applyCore env image subtitle).err := by
  cases he : (applyCore env image subtitle).err with
  | some e => simp [applySubtitleToImage, he]
  | none => simp [applySubtitleToImage, he]

theorem applySubtitle_of_err (env : RenderEnv) (image : Canvas) (subtitle : Subtitle)
    (e : RenderError) (h : (applyCore env image subtitle).err = some e) :
    applySubtitleToImage env image subtitle =
      ⟨(applyCore env image subtitle).image, (applyCore env image subtitle).trace, some e⟩ := by
  simp [applySubtitleToImage, h]

theorem apply_pix_fill (env : RenderEnv) (image : Canvas) (subtitle : Subtitle)
    (p : Pos) (c : Color)
    (hok : (applyCore env image subtitle).err = none)
    (hc : (applyCore env image subtitle).textLayer p = some c) :
    (applySubtitleToImage env image subtitle).image.pix p = c := by
  simp only [applySubtitleToImage, hok, paste, hc, Option.getD_some]

theorem drawLines_o2_color (S : LineSettings) (l : List (ℕ × String)) (od : OutlineData)
    (hS : S.outline2 = some od) :
    ∀ st, (∀ p c, st.o2Layer p = some c → c = od.color) →
    ∀ p c, (drawLines S l st).o2Layer p = some c → c = od.color := by
  induction l with
  | nil => intro st hst p c h; exact hst p c h
  | cons pr rest ih =>
    intro st hst p c h
    rw [drawLines] at h
    by_cases he : st.err.isSome = true
    · simp only [he, if_true] at h; exact hst p c h
    · simp only [he, if_false] at h
      refine ih _ ?_ p c h
      intro q d hq
      rcases drawLineStep_o2 S st pr.1 pr.2 od hS q d hq with h1 | h1
      · exact h1
      · exact hst q d h1

theorem lineX_none (alignment : String) (W dx w : ℚ)
    (h1 : alignment ≠ "left") (h2 : alignment ≠ "center") (h3 : alignment ≠ "right") :
    lineX alignment W dx w = none := by
  simp [lineX, h1, h2, h3]

theorem drawLines_first_invalid (S : LineSettings) (i : ℕ) (line : String)
    (rest : List (ℕ × String)) (st : DrawState) (hst : st.err = none)
    (hx : lineX S.alignment S.image_width S.tb_anchor_x (S.font.getlength line) = none) :
    drawLines S ((i, line) :: rest) st = { st with err := some .invalidAlignment } := by
  rw [drawLines]
  simp only [hst, Option.isSome_none, Bool.false_eq_true, if_false]
  have hstep : drawLineStep S st i line = { st with err := some .invalidAlignment } := by
    simp only [drawLineStep, hx]
  rw [hstep]
  exact drawLines_of_err S rest _ _ rfl

/-! ### Claim theorems: error paths (C7, C8, C10) -/

/-- C7 (amended): when the font reference is unresolvable,
`apply_subtitle_to_image` raises the fatal error before any text rendering:
no text layer is pasted, and the canvas at raise time is exactly the input
canvas with only the configured background applied (so with no background
configured the canvas is untouched).  The original claim's stronger reading —
no pixel at all modified, background included — is refuted by
`font_error_after_background_cex`: the background paste at lines 40-42
precedes the font resolution at line 66. -/
theorem font_error_before_text (env : RenderEnv) (image : Canvas) (subtitle : Subtitle)
    (ws : List String)
    (hw : wrappedText subtitle.content subtitle.subtitle_profile.textbox_data.box_width =
      .ok ws)
    (hf : env.loadFont subtitle.subtitle_profile.font_data.style
      subtitle.subtitle_profile.font_data.size = none) :
    (applySubtitleToImage env image subtitle).error = some .fontNotFound ∧
    (applySubtitleToImage env image subtitle).trace =
      (withBackground env image subtitle.subtitle_profile).2 ∧
    (applySubtitleToImage env image subtitle).image =
      (withBackground env image subtitle.subtitle_profile).1 := by
  have hcore : applyCore env image subtitle =
      initState (withBackground env image subtitle.subtitle_profile).1
        (withBackground env image subtitle.subtitle_profile).2 (some .fontNotFound) := by
    simp only [applyCore, hw, hf]
  rw [applySubtitle_of_err env image subtitle .fontNotFound (by rw [hcore]; rfl), hcore]
  exact ⟨rfl, rfl, rfl⟩

/-- C8 (amended): an alignment value outside left/center/right makes
`apply_subtitle_to_image` raise on the first loop iteration, before any text
pixel is drawn: no layer paste happens and the canvas at raise time carries
only the configured background (so with no background configured the canvas
is unchanged).  The original claim's "canvas unchanged" is refuted by
`alignment_error_after_background_cex` when a background image is
configured, since the background paste precedes the alignment check. -/
theorem alignment_error_before_text (env : RenderEnv) (image : Canvas) (subtitle : Subtitle)
    (font : Font) (w0 : String) (ws : List String)
    (hw : wrappedText subtitle.content subtitle.subtitle_profile.textbox_data.box_width =
      .ok (w0 :: ws))
    (hf : env.loadFont subtitle.subtitle_profile.font_data.style
      subtitle.subtitle_profile.font_data.size = some font)
    (ha1 : subtitle.subtitle_profile.textbox_data.alignment ≠ "left")
    (ha2 : subtitle.subtitle_profile.textbox_data.alignment ≠ "center")
    (ha3 : subtitle.subtitle_profile.textbox_data.alignment ≠ "right") :
    (applySubtitleToImage env image subtitle).error = some .invalidAlignment ∧
    (applySubtitleToImage env image subtitle).trace =
      (withBackground env image subtitle.subtitle_profile).2 ∧
    (applySubtitleToImage env image subtitle).image =
      (withBackground env image subtitle.subtitle_profile).1 := by
  have hcore : applyCore env image subtitle =
      initState (withBackground env image subtitle.subtitle_profile).1
        (withBackground env image subtitle.subtitle_profile).2 (some .invalidAlignment) := by
    simp only [applyCore, hw, hf, List.map_cons, pyMax]
    rw [show (w0 :: ws).enum = (0, w0) :: List.enumFrom 1 ws from rfl]
    exact drawLines_first_invalid _ 0 w0 _ _ rfl
      (lineX_none _ _ _ _ (by simpa [mkSettings] using ha1)
        (by simpa [mkSettings] using ha2) (by simpa [mkSettings] using ha3))
  rw [applySubtitle_of_err env image subtitle .invalidAlignment (by rw [hcore]; rfl), hcore]
  exact ⟨rfl, rfl, rfl⟩

/-- C10 (confirmed): when the content wraps to zero physical lines (empty
content, or only empty / whitespace-only logical lines), the `max()` call on
the empty width list at line 69 raises before any line is positioned or
drawn: the error is `emptyMaxArg`, no paste beyond the optional background
occurred, and the canvas at raise time is the background-applied input. -/
theorem empty_wrap_max_error (env : RenderEnv) (image : Canvas) (subtitle : Subtitle)
    (font : Font)
    (hw : wrappedText subtitle.content subtitle.subtitle_profile.textbox_data.box_width =
      .ok [])
    (hf : env.loadFont subtitle.subtitle_profile.font_data.style
      subtitle.subtitle_profile.font_data.size = some font) :
    (applySubtitleToImage env image subtitle).error = some .emptyMaxArg ∧
    (applySubtitleToImage env image subtitle).trace =
      (withBackground env image subtitle.subtitle_profile).2 ∧
    (applySubtitleToImage env image subtitle).image =
      (withBackground env image subtitle.subtitle_profile).1 := by
  have hcore : applyCore env image subtitle =
      initState (withBackground env image subtitle.subtitle_profile).1
        (withBackground env image subtitle.subtitle_profile).2 (some .emptyMaxArg) := by
    simp only [applyCore, hw, hf, List.map_nil, pyMax]
  rw [applySubtitle_of_err env image subtitle .emptyMaxArg (by rw [hcore]; rfl), hcore]
  exact ⟨rfl, rfl, rfl⟩

/-! ### Claim theorems: positioning formulas (C1, C2) -/

/-- C1 (confirmed): for a subtitle with `n` physical lines, height basis `H`,
canvas height `Ht` and anchor offset `dy`, line `i` (0-based, `i < n`) gets
`y = Ht/2 − dy − H·(n − i)` under push = up, and
`y = Ht/2 − dy + (H·n − H·(n − i)) = Ht/2 − dy + H·i` under push = down;
in particular for push = up, `n = 3`, `dy = 0`: line 0 gets `Ht/2 − 3H` and
line 2 gets `Ht/2 − H`. -/
theorem lineY_spec (Ht H dy : ℚ) (n i : ℕ) (h : i < n) :
    lineY "up" Ht H dy n i = some (Ht / 2 - dy - H * ((n : ℚ) - (i : ℚ))) ∧
    lineY "down" Ht H dy n i =
      some (Ht / 2 - dy + ((n : ℚ) * H - H * ((n : ℚ) - (i : ℚ)))) ∧
    lineY "down" Ht H dy n i = some (Ht / 2 - dy + H * (i : ℚ)) ∧
    lineY "up" Ht H 0 3 0 = some (Ht / 2 - 3 * H) ∧
    lineY "up" Ht H 0 3 2 = some (Ht / 2 - H) := by
  have hc : ((n - i : ℕ) : ℚ) = (n : ℚ) - (i : ℚ) := by
    rw [Nat.cast_sub h.le]
  refine ⟨?_, ?_, ?_, ?_, ?_⟩
  · rw [lineY, if_pos rfl]
    congr 1
    rw [hc]
    ring
  · rw [lineY, if_neg (by decide), if_pos rfl]
    congr 1
    rw [hc]
  · rw [lineY, if_neg (by decide), if_pos rfl]
    congr 1
    rw [hc]
    ring
  · rw [lineY, if_pos rfl]
    congr 1
    norm_num
    ring
  · rw [lineY, if_pos rfl]
    congr 1
    norm_num
    ring

/-- C2 (confirmed): the x origin of a line of width `w` on a canvas of width
`W` with anchor offset `dx` is `(W + w)/2 + dx − w/2` for alignment left,
`W/2 + dx − w/2` for center and `(W − w)/2 + dx − w/2` for right; at
`dx = 0` these specialise to `(W+w)/2 − w/2`, `W/2 − w/2` and
`(W−w)/2 − w/2`. -/
theorem lineX_spec (W dx w : ℚ) :
    lineX "left" W dx w = some ((W + w) / 2 + dx - w / 2) ∧
    lineX "center" W dx w = some (W / 2 + dx - w / 2) ∧
    lineX "right" W dx w = some ((W - w) / 2 + dx - w / 2) ∧
    lineX "left" W 0 w = some ((W + w) / 2 - w / 2) ∧
    lineX "center" W 0 w = some (W / 2 - w / 2) ∧
    lineX "right" W 0 w = some ((W - w) / 2 - w / 2) := by
  refine ⟨?_, ?_, ?_, ?_, ?_, ?_⟩
  · rw [lineX, if_pos rfl]
  · rw [lineX, if_neg (by decide), if_pos rfl]
  · rw [lineX, if_neg (by decide), if_neg (by decide), if_pos rfl]
  · rw [lineX, if_pos rfl]
    congr 1
    ring
  · rw [lineX, if_neg (by decide), if_pos rfl]
    congr 1
    ring
  · rw [lineX, if_neg (by decide), if_neg (by decide), if_pos rfl]
    congr 1
    ring

/-! ### Claim theorems: the text wrapper (C5, C9) -/

/-- C5 counterexample: the content `["a", "", "b"]` wraps to `["a", "b"]` —
the empty logical line contributes no physical line at its position, instead
of the one empty physical line the claim asserts. -/
theorem empty_line_dropped_cex :
    wrappedText ["a", "", "b"] 10 = .ok ["a", "b"] ∧
    (["a", "b"] : List String) ≠ ["a", "", "b"] := by
  exact ⟨rfl, by decide⟩

/-- C5 (amended): an empty logical line produces zero physical lines —
`textwrap.wrap("")` returns `[]`, so blank input lines are dropped from the
flattened output and vertical spacing is not preserved across them. -/
theorem empty_line_zero_physical (w : ℤ) (hw : 0 < w) (pre post : List String) :
    pyWrapE "" w = .ok [] ∧
    wrappedText (pre ++ "" :: post) w = wrappedText (pre ++ post) w := by
  have hbase : pyWrapE "" w = .ok [] := by
    rw [pyWrapE, if_neg (by omega)]
    rfl
  refine ⟨hbase, ?_⟩
  induction pre with
  | nil =>
    rw [List.nil_append, List.nil_append, wrappedText, hbase]
    cases hp : wrappedText post w with
    | error e => simp
    | ok rs => simp
  | cons q qs ih =>
    rw [List.cons_append, List.cons_append, wrappedText, wrappedText, ih]

/-- C9 counterexample: the empty line has length 0 ≤ maxColumns, yet
wrapping it yields no physical line at all instead of the line itself. -/
theorem wrap_idempotent_cex :
    (("" : String).length : ℤ) ≤ 10 ∧ pyWrapE "" 10 ≠ .ok [""] := by
  refine ⟨by decide, ?_⟩
  intro h
  rw [show pyWrapE "" 10 = .ok [] from rfl] at h
  simp at h

/-- C9 (amended): wrapping is the identity on a nonempty logical line of
length at most maxColumns whose characters include no whitespace other than
plain spaces and which does not end in a space: such a line comes back
unchanged as the single physical line.  (An empty line yields `[]`, per
`wrap_idempotent_cex`; a trailing space is dropped; tabs and other
whitespace are rewritten by the wrapper's whitespace munging.) -/
theorem wrap_short_line_id (line : String) (w : ℤ)
    (hne : line ≠ "")
    (hsp : ∀ c ∈ line.data, isWrapWS c = true → c = ' ')
    (hlast : line.data.getLast? ≠ some ' ')
    (hlen : (line.length : ℤ) ≤ w) :
    pyWrapE line w = .ok [line] := by
  have hdne : line.data ≠ [] := by
    intro h
    apply hne
    cases line with
    | mk d =>
      have hd : d = [] := h
      subst hd
      rfl
  have hlen0 : 0 < line.data.length := List.length_pos.mpr hdne
  have hlen' : (line.data.length : ℤ) ≤ w := hlen
  have hwpos : ¬ w ≤ 0 := by omega
  rw [pyWrapE, if_neg hwpos]
  have hmunge : mungeWhitespace line.data = line.data := mungeWhitespace_id line.data hsp
  have hchne : splitRuns line.data ≠ [] := by
    intro h
    have hf := splitRuns_flatten line.data
    rw [h] at hf
    exact hdne hf.symm
  obtain ⟨c, cs, hcc⟩ : ∃ c cs, splitRuns line.data = c :: cs := by
    cases h : splitRuns line.data with
    | nil => exact absurd h hchne
    | cons c cs => exact ⟨c, cs, rfl⟩
  have hsum : ((c :: cs).map List.length).sum = line.data.length := by
    rw [← hcc, ← List.length_flatten, splitRuns_flatten]
  have hle : ((c :: cs).map List.length).sum ≤ w.toNat := by
    rw [hsum]
    omega
  have hlast2 : ∀ ch, (c :: cs).getLast? = some ch → isSpaceChunk ch = false := by
    intro ch hch
    by_contra hb
    have hbt : isSpaceChunk ch = true := by
      revert hb
      cases isSpaceChunk ch <;> simp
    have hchn : ch ≠ [] :=
      splitRuns_ne_nil line.data ch (by rw [hcc]; exact List.mem_of_mem_getLast? hch)
    obtain ⟨d, hd⟩ : ∃ d, ch.getLast? = some d := by
      cases hgl : ch.getLast? with
      | none => exact absurd (List.getLast?_eq_none_iff.mp hgl) hchn
      | some d => exact ⟨d, rfl⟩
    have hdws : isWrapWS d = true := isSpaceChunk_getLast ch hbt d hd
    have hfl : (c :: cs).flatten.getLast? = ch.getLast? := flatten_getLast? _ ch hch hchn
    rw [← hcc, splitRuns_flatten, hd] at hfl
    have hd' : d = ' ' := hsp d (List.mem_of_mem_getLast? hfl) hdws
    rw [hd'] at hfl
    exact hlast hfl
  simp only [pyWrap, hmunge, hcc, chunksFuel]
  rw [wrapOuter_single w.toNat _ c cs hle hlast2]
  rw [← hcc, splitRuns_flatten]
  rfl

/-! ### Success-path lemmas for `applyCore` -/

theorem applyCore_success (env : RenderEnv) (image : Canvas) (subtitle : Subtitle)
    (font : Font) (w0 : String) (ws' : List String)
    (hw : wrappedText subtitle.content subtitle.subtitle_profile.textbox_data.box_width =
      .ok (w0 :: ws'))
    (hf : env.loadFont subtitle.subtitle_profile.font_data.style
      subtitle.subtitle_profile.font_data.size = some font) :
    applyCore env image subtitle =
      drawLines
        (mkSettings subtitle.subtitle_profile font
          (withBackground env image subtitle.subtitle_profile).1 (w0 :: ws').length)
        (w0 :: ws').enum
        (initState (withBackground env image subtitle.subtitle_profile).1
          (withBackground env image subtitle.subtitle_profile).2 none) := by
  simp only [applyCore, hw, hf, List.map_cons, pyMax]

theorem applyCore_ws_ne (env : RenderEnv) (image : Canvas) (subtitle : Subtitle)
    (ws : List String) (font : Font)
    (hw : wrappedText subtitle.content subtitle.subtitle_profile.textbox_data.box_width =
      .ok ws)
    (hf : env.loadFont subtitle.subtitle_profile.font_data.style
      subtitle.subtitle_profile.font_data.size = some font)
    (hok : (applyCore env image subtitle).err = none) : ws ≠ [] := by
  intro h
  subst h
  rw [show applyCore env image subtitle =
      initState (withBackground env image subtitle.subtitle_profile).1
        (withBackground env image subtitle.subtitle_profile).2 (some .emptyMaxArg) from by
    simp only [applyCore, hw, hf, List.map_nil, pyMax]] at hok
  exact Option.noConfusion hok

theorem applyCore_wrap_some (env : RenderEnv) (image : Canvas) (subtitle : Subtitle)
    (hok : (applyCore env image subtitle).err = none) :
    ∃ ws, wrappedText subtitle.content subtitle.subtitle_profile.textbox_data.box_width =
      .ok ws := by
  cases hw : wrappedText subtitle.content subtitle.subtitle_profile.textbox_data.box_width with
  | error e =>
    rw [show applyCore env image subtitle =
        initState (withBackground env image subtitle.subtitle_profile).1
          (withBackground env image subtitle.subtitle_profile).2 (some e) from by
      simp only [applyCore, hw]] at hok
    exact Option.noConfusion hok
  | ok ws => exact ⟨ws, rfl⟩

theorem applyCore_font_some (env : RenderEnv) (image : Canvas) (subtitle : Subtitle)
    (ws : List String)
    (hw : wrappedText subtitle.content subtitle.subtitle_profile.textbox_data.box_width =
      .ok ws)
    (hok : (applyCore env image subtitle).err = none) :
    ∃ font, env.loadFont subtitle.subtitle_profile.font_data.style
      subtitle.subtitle_profile.font_data.size = some font := by
  cases hf : env.loadFont subtitle.subtitle_profile.font_data.style
      subtitle.subtitle_profile.font_data.size with
  | none =>
    rw [show applyCore env image subtitle =
        initState (withBackground env image subtitle.subtitle_profile).1
          (withBackground env image subtitle.subtitle_profile).2 (some .fontNotFound) from by
      simp only [applyCore, hw, hf]] at hok
    exact Option.noConfusion hok
  | some font => exact ⟨font, rfl⟩

theorem paste_pix (image : Canvas) (layer : Layer) (p : Pos) :
    (paste image layer).pix p = (layer p).getD (image.pix p) := rfl

theorem applySubtitle_success_both (env : RenderEnv) (image : Canvas) (subtitle : Subtitle)
    (od1 od2 : OutlineData)
    (h1 : subtitle.subtitle_profile.outline_data_1 = some od1)
    (h2 : subtitle.subtitle_profile.outline_data_2 = some od2)
    (hb1 : od1.blur_strength = none) (hb2 : od2.blur_strength = none)
    (hok : (applyCore env image subtitle).err = none) :
    applySubtitleToImage env image subtitle =
      { image := paste (paste (paste (applyCore env image subtitle).image
            (applyCore env image subtitle).o2Layer) (applyCore env image subtitle).o1Layer)
          (applyCore env image subtitle).textLayer,
        trace := (applyCore env image subtitle).trace ++
          [PasteEvent.outline2, PasteEvent.outline1, PasteEvent.fillFinal],
        error := none } := by
  simp only [applySubtitleToImage, hok, h2, h1, compositedOutline, hb2, hb1,
    List.append_assoc, List.cons_append, List.nil_append]

/-! ### Claim theorems: compositing order (C3), group fold (C4), width source (C6) -/

/-- C3 (confirmed, for unblurred outlines): the paste operations of one
subtitle application occur in the fixed order — background (if configured),
then one fill-layer paste per line in line order, then the outline-2 layer,
then the outline-1 layer, then the fill layer last.  Consequently, at any
pixel the fill layer's ink wins, then outline-1's ink, then outline-2's ink
(which is necessarily outline-2's configured colour), and a pixel touched by
no layer shows the background-applied canvas. -/
theorem composite_order_spec (env : RenderEnv) (image : Canvas) (subtitle : Subtitle)
    (od1 od2 : OutlineData)
    (h1 : subtitle.subtitle_profile.outline_data_1 = some od1)
    (h2 : subtitle.subtitle_profile.outline_data_2 = some od2)
    (hb1 : od1.blur_strength = none) (hb2 : od2.blur_strength = none)
    (hok : (applyCore env image subtitle).err = none) :
    (∃ ws, wrappedText subtitle.content subtitle.subtitle_profile.textbox_data.box_width =
        .ok ws ∧
      (applySubtitleToImage env image subtitle).trace =
        (withBackground env image subtitle.subtitle_profile).2 ++
          (List.range ws.length).map PasteEvent.fillLine ++
          [PasteEvent.outline2, PasteEvent.outline1, PasteEvent.fillFinal]) ∧
    (∀ p c, (applyCore env image subtitle).textLayer p = some c →
      (applySubtitleToImage env image subtitle).image.pix p = c) ∧
    (∀ p c, (applyCore env image subtitle).textLayer p = none →
      (applyCore env image subtitle).o1Layer p = some c →
      (applySubtitleToImage env image subtitle).image.pix p = c) ∧
    (∀ p c, (applyCore env image subtitle).textLayer p = none →
      (applyCore env image subtitle).o1Layer p = none →
      (applyCore env image subtitle).o2Layer p = some c →
      (applySubtitleToImage env image subtitle).image.pix p = c ∧ c = od2.color) ∧
    (∀ p, (applyCore env image subtitle).textLayer p = none →
      (applyCore env image subtitle).o1Layer p = none →
      (applyCore env image subtitle).o2Layer p = none →
      (applySubtitleToImage env image subtitle).image.pix p =
        (withBackground env image subtitle.subtitle_profile).1.pix p) := by
  obtain ⟨ws, hw⟩ := applyCore_wrap_some env image subtitle hok
  obtain ⟨font, hf⟩ := applyCore_font_some env image subtitle ws hw hok
  obtain ⟨w0, ws', hws⟩ : ∃ w0 ws', ws = w0 :: ws' := by
    cases hc : ws with
    | nil => exact absurd hc (applyCore_ws_ne env image subtitle ws font hw hf hok)
    | cons w0 ws' => exact ⟨w0, ws', rfl⟩
  subst hws
  have hcore := applyCore_success env image subtitle font w0 ws' hw hf
  have hfin := applySubtitle_success_both env image subtitle od1 od2 h1 h2 hb1 hb2 hok
  refine ⟨⟨w0 :: ws', hw, ?_⟩, ?_, ?_, ?_, ?_⟩
  · rw [hfin]
    have hout := drawLines_out
      (mkSettings subtitle.subtitle_profile font
        (withBackground env image subtitle.subtitle_profile).1 (w0 :: ws').length)
      ((w0 :: ws').enum)
      (initState (withBackground env image subtitle.subtitle_profile).1
        (withBackground env image subtitle.subtitle_profile).2 none)
      rfl (by rw [← hcore]; exact hok)
    rw [hcore] at hok ⊢
    rw [hout.1]
    simp only [initState, List.append_assoc]
    congr 2
    rw [← List.enum_map_fst (w0 :: ws'), List.map_map]
    rfl
  · intro p c hc
    rw [hfin, paste_pix, hc]
    rfl
  · intro p c ht ho1
    rw [hfin, paste_pix, ht, Option.getD_none, paste_pix, ho1]
    rfl
  · intro p c ht ho1 ho2
    constructor
    · rw [hfin, paste_pix, ht, Option.getD_none, paste_pix, ho1, Option.getD_none,
        paste_pix, ho2]
      rfl
    · refine drawLines_o2_color
        (mkSettings subtitle.subtitle_profile font
          (withBackground env image subtitle.subtitle_profile).1 (w0 :: ws').length)
        ((w0 :: ws').enum) od2 (by simp [mkSettings, h2]) _ ?_ p c (by rw [← hcore]; exact ho2)
      intro q d hq
      exact absurd hq (by simp [initState, emptyLayer])
  · intro p ht ho1 ho2
    rw [hfin, paste_pix, ht, Option.getD_none, paste_pix, ho1, Option.getD_none,
      paste_pix, ho2, Option.getD_none]
    rw [hcore] at ht ⊢
    rw [drawLines_image_pix _ _ _ p ht]
    rfl

/-- C4 (confirmed): `apply_subtitle_group` opens the canvas once and folds
the subtitle list over it in list order — applying a prefix and then the
rest of the list on the prefix's output canvas is the same as applying the
whole list — and on overlap the later subtitle's fill pixels win: wherever
the second subtitle's fill layer has ink, the final canvas shows that ink
regardless of the first subtitle. -/
theorem apply_group_fold_spec :
    (∀ (svc : SubtitleService) (env : RenderEnv) (group : SubtitleGroup),
      applySubtitleGroup svc env group =
        applySubtitleListToImage env
          (env.openImage (joinPath svc.subtitle_model.input_image_directory group.image_id))
          group.subtitle_list) ∧
    (∀ (env : RenderEnv) (image : Canvas) (l1 l2 : List Subtitle),
      (applySubtitleListToImage env image l1).2 = none →
      applySubtitleListToImage env image (l1 ++ l2) =
        applySubtitleListToImage env (applySubtitleListToImage env image l1).1 l2) ∧
    (∀ (env : RenderEnv) (image : Canvas) (s1 s2 : Subtitle) (p : Pos) (c : Color),
      (applySubtitleToImage env image s1).error = none →
      (applyCore env (applySubtitleToImage env image s1).image s2).err = none →
      (applyCore env (applySubtitleToImage env image s1).image s2).textLayer p = some c →
      (applySubtitleListToImage env image [s1, s2]).1.pix p = c) := by
  refine ⟨fun svc env group => rfl, ?_, ?_⟩
  · intro env image l1 l2 h
    induction l1 generalizing image with
    | nil => simp [applySubtitleListToImage]
    | cons s rest ih =>
      rw [List.cons_append, applySubtitleListToImage, applySubtitleListToImage]
      rw [applySubtitleListToImage] at h
      cases he : (applySubtitleToImage env image s).error with
      | some e => rw [he] at h; exact absurd h (by simp)
      | none =>
        rw [he] at h
        simp only
        exact ih _ h
  · intro env image s1 s2 p c h1 h2 h3
    simp only [applySubtitleListToImage, h1]
    have he2 : (applySubtitleToImage env (applySubtitleToImage env image s1).image s2).error =
        none := by
      rw [applySubtitle_error_eq]
      exact h2
    simp only [he2]
    exact apply_pix_fill _ _ _ p c h2 h3

/-- C6 (amended): the width the Line Positioner feeds into the alignment
formula for each physical line is `font.getlength(line)` — the possibly
fractional pixel advance recomputed at line 78 — not the ink bounding-box
width measured by `_get_text_dimensions` (whose values only feed the unused
`max_text_width`).  The counterexample `positioner_width_cex` exhibits a
font on which the two sources disagree and the computed x follows
`getlength`. -/
theorem positioner_uses_getlength (env : RenderEnv) (image : Canvas) (subtitle : Subtitle)
    (ws : List String) (font : Font)
    (hw : wrappedText subtitle.content subtitle.subtitle_profile.textbox_data.box_width =
      .ok ws)
    (hf : env.loadFont subtitle.subtitle_profile.font_data.style
      subtitle.subtitle_profile.font_data.size = some font)
    (hok : (applyCore env image subtitle).err = none) :
    (applyCore env image subtitle).linePos =
      ws.enum.map fun pr =>
        linePosOf
          (mkSettings subtitle.subtitle_profile font
            (withBackground env image subtitle.subtitle_profile).1 ws.length)
          pr.1 pr.2 := by
  obtain ⟨w0, ws', hws⟩ : ∃ w0 ws', ws = w0 :: ws' := by
    cases hc : ws with
    | nil => exact absurd hc (applyCore_ws_ne env image subtitle ws font hw hf hok)
    | cons w0 ws' => exact ⟨w0, ws', rfl⟩
  subst hws
  have hcore := applyCore_success env image subtitle font w0 ws' hw hf
  rw [hcore] at hok ⊢
  have hout := drawLines_out
    (mkSettings subtitle.subtitle_profile font
      (withBackground env image subtitle.subtitle_profile).1 (w0 :: ws').length)
    ((w0 :: ws').enum)
    (initState (withBackground env image subtitle.subtitle_profile).1
      (withBackground env image subtitle.subtitle_profile).2 none)
    rfl hok
  rw [hout.2]
  simp [initState]

/-! ### Counterexamples and witnesses on concrete fixtures -/

/-- C6 counterexample: on `font1` (advance of `"a"` is 9/2, ink-box width
is 4) with a 200-wide canvas, centered, anchor 0, the loop computes
`x = 200/2 − (9/2)/2 = 391/4`, while the alignment formula fed with the
Metrics Provider's width `_get_text_dimensions("a")[0] = 4` would give
`x = 98 ≠ 391/4` — the positioner does not use the measured width. -/
theorem positioner_width_cex :
    (applyCore env6 base0 sub6).linePos.map Prod.fst = [(391 : ℚ) / 4] ∧
    lineX "center" 200 0 (((getTextDimensions "a" font1).1 : ℚ)) = some 98 ∧
    ((391 : ℚ) / 4) ≠ 98 := by
  refine ⟨?_, ?_, by norm_num⟩
  · have h1 : (applyCore env6 base0 sub6).linePos.map Prod.fst =
        [((base0.width : ℚ) / 2 + 0 - font1.getlength "a" / 2)] := rfl
    rw [h1]
    norm_num [font1, base0]
  · rw [lineX, if_neg (by decide), if_pos rfl]
    congr 1
    norm_num [getTextDimensions, font1]

/-- C7 counterexample: with a background image configured and an
unresolvable font, the raised error leaves the canvas already modified —
pixel (9,9) carries the background's colour 7, while it was 0 in the input
canvas — so the error does not precede every pixel modification. -/
theorem font_error_after_background_cex :
    (applySubtitleToImage env1 base0 sub7).error = some .fontNotFound ∧
    (applySubtitleToImage env1 base0 sub7).image.pix (9, 9) = 7 ∧
    base0.pix (9, 9) = 0 := by
  refine ⟨by decide, by decide, rfl⟩

/-- C8 counterexample: with a background image configured and alignment
`"justify"`, the `ValueError` is raised with the canvas already modified by
the background paste — pixel (9,9) carries colour 7 instead of the input 0 —
so the canvas is not unchanged when the error is raised. -/
theorem alignment_error_after_background_cex :
    (applySubtitleToImage env0 base0 sub8).error = some .invalidAlignment ∧
    (applySubtitleToImage env0 base0 sub8).image.pix (9, 9) = 7 ∧
    base0.pix (9, 9) = 0 := by
  refine ⟨by decide, by decide, rfl⟩

/-- Witness for C1 at `Ht = 100`, `H = 20`, `dy = 0`, `n = 3`: line 0 gets
`y = −10 = 100/2 − 3·20` and line 2 gets `y = 90 = 100/2 + 20·2` under
push = down. -/
theorem lineY_spec_witness :
    lineY "up" (100 : ℚ) 20 0 3 0 = some (-10) ∧
    lineY "down" (100 : ℚ) 20 0 3 2 = some 90 := by
  constructor
  · rw [(lineY_spec 100 20 0 3 0 (by decide)).1]
    congr 1
    norm_num
  · rw [(lineY_spec 100 20 0 3 2 (by decide)).2.2.1]
    congr 1
    norm_num

/-- Witness for C3 on `sub3` (both outlines, background, one line `"ab"`,
`font0`): the paste trace is background, fill line 0, outline 2, outline 1,
final fill; pixel (0,0) (all three layers inked) shows fill colour 1; pixel
(2,0) (outline-2 stroke only) shows outline-2's colour 5; pixel (9,9)
(no ink) shows the background's colour 7. -/
theorem composite_order_spec_witness :
    (applySubtitleToImage env0 base0 sub3).trace =
      [PasteEvent.background, PasteEvent.fillLine 0, PasteEvent.outline2,
        PasteEvent.outline1, PasteEvent.fillFinal] ∧
    (applySubtitleToImage env0 base0 sub3).image.pix (0, 0) = 1 ∧
    (applySubtitleToImage env0 base0 sub3).image.pix (2, 0) = 5 ∧
    (applySubtitleToImage env0 base0 sub3).image.pix (9, 9) = 7 := by
  have h := composite_order_spec env0 base0 sub3 ⟨3, 1, none⟩ ⟨5, 2, none⟩
    rfl rfl rfl rfl (by decide)
  refine ⟨?_, ?_, ?_, ?_⟩
  · obtain ⟨ws, hws, htr⟩ := h.1
    have hws2 : ws = ["ab"] := by
      rw [show wrappedText sub3.content sub3.subtitle_profile.textbox_data.box_width =
        Except.ok ["ab"] from rfl] at hws
      exact (Except.ok.inj hws).symm
    subst hws2
    rw [htr]
    rfl
  · exact h.2.1 (0, 0) 1 (by decide)
  · exact (h.2.2.2.1 (2, 0) 5 (by decide) (by decide) (by decide)).1
  · exact (h.2.2.2.2 (9, 9) (by decide) (by decide) (by decide)).trans (by decide)

/-- Witness for C4: applying `[sub4a] ++ [sub4b]` equals applying `[sub4b]`
to the canvas produced by `[sub4a]`, and on the overlapping glyph pixel
(0,0) the later subtitle's fill colour 4 wins. -/
theorem apply_group_fold_spec_witness :
    applySubtitleListToImage env0 base0 ([sub4a] ++ [sub4b]) =
      applySubtitleListToImage env0 (applySubtitleListToImage env0 base0 [sub4a]).1 [sub4b] ∧
    (applySubtitleListToImage env0 base0 [sub4a, sub4b]).1.pix (0, 0) = 4 := by
  constructor
  · exact apply_group_fold_spec.2.1 env0 base0 [sub4a] [sub4b] (by decide)
  · exact apply_group_fold_spec.2.2 env0 base0 sub4a sub4b (0, 0) 4
      (by decide) (by decide) (by decide)

/-- Witness for C5: at width 10 the empty line wraps to nothing, and the
content `["a", "", "b"]` flattens the same as `["a", "b"]`. -/
theorem empty_line_zero_physical_witness :
    pyWrapE "" 10 = .ok [] ∧
    wrappedText (["a"] ++ "" :: ["b"]) 10 = wrappedText (["a"] ++ ["b"]) 10 :=
  empty_line_zero_physical 10 (by decide) ["a"] ["b"]

/-- Witness for C6 (amended) on `sub6` and `font1`: the recorded line origin
list equals the `getlength`-based positions. -/
theorem positioner_uses_getlength_witness :
    (applyCore env6 base0 sub6).linePos =
      (["a"] : List String).enum.map fun pr =>
        linePosOf
          (mkSettings sub6.subtitle_profile font1
            (withBackground env6 base0 sub6.subtitle_profile).1
            (["a"] : List String).length)
          pr.1 pr.2 :=
  positioner_uses_getlength env6 base0 sub6 ["a"] font1 rfl rfl (by decide)

/-- Witness for C7 (amended): with no background configured and an
unresolvable font, the error is raised with the canvas untouched. -/
theorem font_error_before_text_witness :
    (applySubtitleToImage env1 base0 sub4a).error = some .fontNotFound ∧
    (applySubtitleToImage env1 base0 sub4a).image =
      (withBackground env1 base0 sub4a.subtitle_profile).1 := by
  have h := font_error_before_text env1 base0 sub4a ["ab"] rfl rfl
  exact ⟨h.1, h.2.2⟩

/-- Witness for C8 (amended): alignment `"justify"` with no background
raises `invalidAlignment` with an empty paste trace. -/
theorem alignment_error_before_text_witness :
    (applySubtitleToImage env0 base0 sub8b).error = some .invalidAlignment ∧
    (applySubtitleToImage env0 base0 sub8b).trace = [] := by
  have h := alignment_error_before_text env0 base0 sub8b font0 "ab" [] rfl rfl
    (by decide) (by decide) (by decide)
  exact ⟨h.1, h.2.1.trans rfl⟩

/-- Witness for C9 (amended): `"ab"` at width 5 wraps to itself. -/
theorem wrap_short_line_id_witness :
    pyWrapE "ab" 5 = .ok ["ab"] :=
  wrap_short_line_id "ab" 5 (by decide) (by decide) (by decide) (by decide)

/-- Witness for C10: content `["", "  "]` wraps to zero physical lines, so
applying `sub10` fails with the empty-`max` error and the canvas (no
background configured) stays as given. -/
theorem empty_wrap_max_error_witness :
    (applySubtitleToImage env0 base0 sub10).error = some .emptyMaxArg ∧
    (applySubtitleToImage env0 base0 sub10).image =
      (withBackground env0 base0 sub10.subtitle_profile).1 := by
  have h := empty_wrap_max_error env0 base0 sub10 font0 rfl rfl
  exact ⟨h.1, h.2.2⟩
